import Mathlib

/-!
Verification development for the Omni-Core pipeline event-stream processor.

The definitions below are a shallow embedding of the frontend engine:
the `Home` component (stage list, event dispatch loop, stop/reset
handlers, the `stepsWithProgress` reconciliation) and the newline frame
decoder of its streaming read loop, together with the progress-map
semantics of `useMultiStepProgress`.  Numbers carried by the progress
channels are modelled as rationals (JS numbers on the values the
program manipulates), `Math.round` as `jsRound`, JS records keyed by
stage id as total functions `String → ℚ` defaulting to 0 (matching the
`x[id] || 0` access pattern), and byte/text chunks as `List Char`.
-/

namespace OmniCore

/-- `StepStatus` from `PipelineTracker`: the five stage statuses. -/
inductive StepStatus
  | pending
  | active
  | completed
  | error
  | skipped
deriving DecidableEq, Repr

/-- `PipelineStep` from `PipelineTracker` (the `icon` field is opaque
display data and is omitted).  `progress` is optional, as in the
TypeScript interface (`progress?: number`); the values the program ever
stores there are integers (100, or a `Math.round` result). -/
structure PipelineStep where
  id : String
  label : String
  description : String
  status : StepStatus
  progress : Option ℤ := none
deriving DecidableEq, Repr

/-- `INITIAL_STEPS`: the fixed six-stage pipeline, all `pending`. -/
def INITIAL_STEPS : List PipelineStep :=
  [ { id := "transcription", label := "Transcription", description := "Local Whisper", status := .pending },
    { id := "analysis", label := "Intelligence", description := "Brain + Research", status := .pending },
    { id := "generation", label := "Content Hub", description := "Social Assets", status := .pending },
    { id := "visuals", label := "Visual Studio", description := "Carousel + Thumbnails", status := .pending },
    { id := "audio", label := "Audio Hub", description := "Neural Dubbing", status := .pending },
    { id := "storage", label := "Airtable", description := "Production Board", status := .pending } ]

/-- JavaScript `Math.round`: round half away from zero toward +∞,
i.e. `⌊q + 1/2⌋`. -/
def jsRound (q : ℚ) : ℤ := ⌊q + 1/2⌋

/-- The per-step body of `stepsWithProgress`: merge the real (reported)
and simulated channels for one step.  `real`/`simulated` model the
`realProgress` and `simulatedProgress` records (`x[id] || 0`). -/
def withProgress (real simulated : String → ℚ) (step : PipelineStep) : PipelineStep :=
  let r := real step.id
  let s := simulated step.id
  let progress : ℚ :=
    if step.status = .completed then 100
    else if step.status = .active then max r s
    else 0
  { step with progress := some (jsRound progress) }

/-- `stepsWithProgress`: the list the presentation layer renders. -/
def stepsWithProgress (steps : List PipelineStep) (real simulated : String → ℚ) :
    List PipelineStep :=
  steps.map (withProgress real simulated)

/-- The displayed progress for a stage id: the `progress` field of the
first step with that id in `stepsWithProgress` (0 when absent). -/
def displayProgress (steps : List PipelineStep) (real simulated : String → ℚ)
    (id : String) : ℤ :=
  (((stepsWithProgress steps real simulated).find? (fun s => s.id = id)).bind
    (fun s => s.progress)).getD 0

/-- `updateStepStatus`: set the status of the step with the given id,
forcing `progress` to 100 on completion. -/
def updateStepStatus (id : String) (status : StepStatus)
    (steps : List PipelineStep) : List PipelineStep :=
  steps.map (fun step =>
    if step.id = id then
      { step with status := status,
                  progress := if status = .completed then some 100 else step.progress }
    else step)

/-- The plan builder of `handleProcessVideo` ("smart skipping"): from
the requested platforms, mark the optional stages not covered by any
requested output as `skipped`. -/
def smartSteps (platforms : List String) : List PipelineStep :=
  INITIAL_STEPS.map (fun step =>
    if step.id = "transcription" ∨ step.id = "analysis" ∨ step.id = "storage" then step
    else if step.id = "generation" then
      if (["twitter", "blog", "linkedin", "newsletter"].any (fun p => platforms.contains p))
      then step else { step with status := .skipped }
    else if step.id = "visuals" then
      if platforms.contains "visuals" then step else { step with status := .skipped }
    else if step.id = "audio" then
      if platforms.contains "audio" then step else { step with status := .skipped }
    else step)

/-- The growing results value (`result` state, keys as set by the event
handlers; payloads are opaque and modelled as strings). -/
structure ResultsAggregate where
  analysis : Option String := none
  research : Option String := none
  linkedin_post : Option String := none
  twitter_thread : Option String := none
  blog_post : Option String := none
  linkedin_hooks : List String := []
  broll_images : List String := []
  seo_score : Option String := none
  newsletter_html : Option String := none
  carousel : Option String := none
  thumbnails : Option String := none
  audio : Option String := none
deriving DecidableEq, Repr

/-- The parsed stream events, one constructor per recognized `type`
discriminator of the wire protocol; `other` stands for an unrecognized
type (the switch has no default case, so it has no effect). -/
inductive Event
  | status (message : String)
  | progress (step : String) (percent : ℚ)
  | thinking_start (step label : String)
  | thinking (token : String)
  | thinking_done
  | transcript
  | analysis (data : String)
  | research (data : String)
  | linkedin (data : String)
  | twitter (data : String)
  | blog (data : String)
  | hooks (data : List String)
  | broll (data : List String)
  | seo (data : String)
  | newsletter (data : String)
  | carousel (data : String)
  | thumbnails (data : String)
  | audio (data : String)
  | airtable
  | error (err : String)
  | other (type : String)
deriving DecidableEq, Repr

/-- The `Home` component state (the fields the engine mutates). -/
structure HomeState where
  steps : List PipelineStep
  isLoading : Bool
  error : Option String
  result : Option ResultsAggregate
  activeSection : String
  realProgress : String → ℚ
  selectedPlatforms : List String
  isThinking : Bool
  thinkingStep : String
  thinkingLabel : String
  thinkingText : String

/-- The initial component state (the `useState` initializers). -/
def initialState : HomeState :=
  { steps := INITIAL_STEPS,
    isLoading := false,
    error := none,
    result := none,
    activeSection := "analysis",
    realProgress := fun _ => 0,
    selectedPlatforms := [],
    isThinking := false,
    thinkingStep := "",
    thinkingLabel := "",
    thinkingText := "" }

/-- The empty result structure installed at run start
(`setResult({analysis: undefined, ...})`). -/
def initialResult : ResultsAggregate := {}

/-- One iteration of the event `switch` in `handleProcessVideo`:
returns the next state and whether the loop was exited early (the
`return` in the `error` case). -/
def applyEvent (st : HomeState) (e : Event) : HomeState × Bool :=
  match e with
  | .status _ => (st, false)
  | .progress step percent =>
      ({ st with realProgress := Function.update st.realProgress step percent }, false)
  | .thinking_start step label =>
      ({ st with isThinking := true, thinkingStep := step, thinkingLabel := label,
                 thinkingText := "" }, false)
  | .thinking token =>
      ({ st with thinkingText := st.thinkingText ++ token }, false)
  | .thinking_done => ({ st with isThinking := false }, false)
  | .transcript =>
      ({ st with steps := updateStepStatus "analysis" .active (updateStepStatus "transcription" .completed st.steps) }, false)
  | .analysis data =>
      ({ st with result := some { st.result.getD initialResult with analysis := some data },
                 steps := updateStepStatus "analysis" .active st.steps,
                 activeSection := "analysis" }, false)
  | .research data =>
      ({ st with result := some { st.result.getD initialResult with research := some data },
                 steps := updateStepStatus "generation" .active (updateStepStatus "analysis" .completed st.steps),
                 activeSection := "research" }, false)
  | .linkedin data =>
      ({ st with result := some { st.result.getD initialResult with linkedin_post := some data },
                 activeSection := "linkedin" }, false)
  | .twitter data =>
      ({ st with result := some { st.result.getD initialResult with twitter_thread := some data },
                 activeSection := "twitter" }, false)
  | .blog data =>
      ({ st with result := some { st.result.getD initialResult with blog_post := some data },
                 activeSection := "blog" }, false)
  | .hooks data =>
      ({ st with result := some { st.result.getD initialResult with linkedin_hooks := data },
                 activeSection := "hooks" }, false)
  | .broll data =>
      ({ st with result := some { st.result.getD initialResult with broll_images := data },
                 steps := updateStepStatus "features" .active st.steps }, false)
  | .seo data =>
      ({ st with result := some { st.result.getD initialResult with seo_score := some data } }, false)
  | .newsletter data =>
      ({ st with result := some { st.result.getD initialResult with newsletter_html := some data },
                 activeSection := "newsletter" }, false)
  | .carousel data =>
      ({ st with result := some { st.result.getD initialResult with carousel := some data },
                 steps := updateStepStatus "visuals" .active (updateStepStatus "generation" .completed st.steps),
                 activeSection := "carousel" }, false)
  | .thumbnails data =>
      ({ st with result := some { st.result.getD initialResult with thumbnails := some data },
                 activeSection := "thumbnails" }, false)
  | .audio data =>
      ({ st with result := some { st.result.getD initialResult with audio := some data },
                 steps := updateStepStatus "audio" .active (updateStepStatus "visuals" .completed st.steps),
                 activeSection := "audio" }, false)
  | .airtable =>
      ({ st with steps := updateStepStatus "storage" .completed (updateStepStatus "features" .completed (updateStepStatus "generation" .completed st.steps)) }, false)
  | .error err => ({ st with error := some err, isLoading := false }, true)
  | .other _ => (st, false)

/-- Fold `applyEvent` over a list of parsed lines, stopping early when
an `error` event returns from the handler. -/
def runLines : HomeState → List Event → HomeState × Bool
  | st, [] => (st, false)
  | st, e :: es =>
      let r := applyEvent st e
      if r.2 then (r.1, true) else runLines r.1 es

/-- The whole successful-transport read loop: apply every line; if the
stream ends without an `error` event, mark every step completed
(line "Mark all as complete if no error"); the `finally` clears
`isLoading` on both paths. -/
def processStream (st : HomeState) (events : List Event) : HomeState :=
  let r := runLines st events
  let st' :=
    if r.2 then r.1
    else { r.1 with steps := r.1.steps.map (fun s => { s with status := .completed }) }
  { st' with isLoading := false }

/-- The pre-loop part of `handleProcessVideo`: clear the error, install
the smart plan and the empty result, then activate transcription. -/
def startRun (st : HomeState) (platforms : List String) : HomeState :=
  { st with isLoading := true,
            error := none,
            steps := updateStepStatus "transcription" .active (smartSteps platforms),
            selectedPlatforms := platforms,
            activeSection := "analysis",
            result := some initialResult }

/-- `handleStopPipeline`: abort, surface the user-stop message, demote
every `active` step to `pending`. -/
def handleStopPipeline (st : HomeState) : HomeState :=
  { st with isLoading := false,
            isThinking := false,
            thinkingText := "",
            thinkingStep := "",
            thinkingLabel := "",
            error := some "Pipeline stopped by user",
            steps := st.steps.map (fun step =>
              if step.status = .active then { step with status := .pending } else step) }

/-- The `catch` branch of `handleProcessVideo` (transport failure):
surface the thrown message and mark every `active` step `error`. -/
def handleStreamFailure (st : HomeState) (msg : String) : HomeState :=
  { st with error := some msg,
            steps := st.steps.map (fun step =>
              if step.status = .active then { step with status := .error } else step),
            isLoading := false }

/-- Prepend a character to the first piece of a split, starting a new
piece when the split is empty (an auxiliary for `splitNl`). -/
def consHd (c : Char) : List (List Char) → List (List Char)
  | [] => [[c]]
  | l :: ls => (c :: l) :: ls

/-- JavaScript `buffer.split("\n")` over a character list: the pieces
between newline characters, in order.  Always returns at least one
piece (possibly empty), exactly as `String.prototype.split`. -/
def splitNl : List Char → List (List Char)
  | [] => [[]]
  | c :: cs => if c = '\n' then [] :: splitNl cs else consHd c (splitNl cs)

/-- One read-loop iteration of the frame decoder: append the chunk to
the buffer, split on newlines, emit all complete lines
(`lines.pop()` keeps the last partial piece as the new buffer). -/
def feedChunk (buf chunk : List Char) : List (List Char) × List Char :=
  let parts := splitNl (buf ++ chunk)
  (parts.dropLast, parts.getLastD [])

/-- Run the frame decoder over successive chunks from a buffer:
returns the emitted complete lines, in order, and the final buffer
contents (which the loop never emits once the stream ends). -/
def decodeChunksAux : List Char → List (List Char) → List (List Char) × List Char
  | buf, [] => ([], buf)
  | buf, c :: cs =>
      let fed := feedChunk buf c
      let rest := decodeChunksAux fed.2 cs
      (fed.1 ++ rest.1, rest.2)

/-- The frame decoder applied to a whole stream of chunks, starting
from the empty buffer (`let buffer = ""`). -/
def decodeChunks (cs : List (List Char)) : List (List Char) × List Char :=
  decodeChunksAux [] cs

/-- `resetSteps`: restore the default plan and clear every run field. -/
def resetSteps (st : HomeState) : HomeState :=
  { st with steps := INITIAL_STEPS,
            error := none,
            result := none,
            isLoading := false,
            activeSection := "analysis",
            selectedPlatforms := [],
            thinkingStep := "",
            thinkingLabel := "",
            thinkingText := "",
            isThinking := false }

/-! ### Demonstration states used by witnesses and counterexamples -/

/-- A run started with only the `twitter` output requested. -/
def runTwitter : HomeState := startRun initialState ["twitter"]

/-- `runTwitter` after `transcript` and `research` events: the
`generation` stage is `active`. -/
def runGenActive : HomeState :=
  (runLines runTwitter [Event.transcript, Event.research "r"]).1

/-- A run with `twitter`, `visuals` and `audio` requested, advanced by
events until the `audio` stage is `active`. -/
def runAudioActive : HomeState :=
  (runLines (startRun initialState ["twitter", "visuals", "audio"])
    [Event.transcript, Event.research "r", Event.carousel "c", Event.audio "a"]).1

/-- `runTwitter` after a `transcript` event: `transcription` is
`completed` and `analysis` is `active`. -/
def runAnalysisActive : HomeState := (runLines runTwitter [Event.transcript]).1

/-- `runAnalysisActive` after a `progress` event reporting 40 percent
for `analysis`. -/
def runAnalysis40 : HomeState :=
  (applyEvent runAnalysisActive (Event.progress "analysis" 40)).1

/-- `runTwitter` after a `progress` event reporting 80 percent for
`transcription` (which is `active`). -/
def runT80 : HomeState := (applyEvent runTwitter (Event.progress "transcription" 80)).1

/-- `runT80` after a further `progress` event reporting only 30 percent
for `transcription`. -/
def runT80then30 : HomeState :=
  (applyEvent runT80 (Event.progress "transcription" 30)).1

/-! ### Helper lemmas -/

/-- `find?` on an id-keyed list commutes with mapping an id-preserving
function over it. -/
theorem find?_map_of_id_eq (f : PipelineStep → PipelineStep)
    (hf : ∀ s, (f s).id = s.id) (id : String) (l : List PipelineStep) :
    (l.map f).find? (fun s => s.id = id) = (l.find? (fun s => s.id = id)).map f := by
  induction l with
  | nil => rfl
  | cons a l ih =>
      by_cases h : a.id = id
      · simp [List.find?, hf a, h]
      · simpa [List.find?, hf a, h] using ih

/-- `withProgress` does not change the id of a step. -/
theorem withProgress_id (real simulated : String → ℚ) (s : PipelineStep) :
    (withProgress real simulated s).id = s.id := rfl

/-- Characterization of `displayProgress` through `find?` on the raw
step list. -/
theorem displayProgress_eq_find? (steps : List PipelineStep)
    (real simulated : String → ℚ) (id : String) :
    displayProgress steps real simulated id =
      match steps.find? (fun s => s.id = id) with
      | none => 0
      | some s =>
          jsRound (if s.status = .completed then 100
                   else if s.status = .active then max (real s.id) (simulated s.id)
                   else 0) := by
  unfold displayProgress stepsWithProgress
  rw [find?_map_of_id_eq (withProgress real simulated) (withProgress_id real simulated) id]
  cases steps.find? (fun s => s.id = id) with
  | none => rfl
  | some s => rfl

/-- When `find?` locates an `active` step for an id, the displayed
progress for that id is the rounded max of the two channels. -/
theorem display_of_active_find? (steps : List PipelineStep)
    (real simulated : String → ℚ) (id : String) (s : PipelineStep)
    (hf : steps.find? (fun t => t.id = id) = some s) (ha : s.status = .active) :
    displayProgress steps real simulated id =
      jsRound (max (real id) (simulated id)) := by
  have hid : s.id = id := by simpa using List.find?_some hf
  rw [displayProgress_eq_find?, hf]
  simp [ha, hid]

/-- `jsRound` is monotone. -/
theorem jsRound_mono {q r : ℚ} (h : q ≤ r) : jsRound q ≤ jsRound r :=
  Int.floor_le_floor (by linarith)

/-- `jsRound` fixes the integer 0. -/
theorem jsRound_zero : jsRound 0 = 0 := by
  unfold jsRound
  norm_num [Int.floor_eq_zero_iff]

/-- `consHd` never produces the empty list of pieces. -/
theorem consHd_ne_nil (c : Char) (L : List (List Char)) : consHd c L ≠ [] := by
  cases L <;> simp [consHd]

/-- `splitNl` never produces the empty list of pieces. -/
theorem splitNl_ne_nil (s : List Char) : splitNl s ≠ [] := by
  cases s with
  | nil => simp [splitNl]
  | cons c cs => by_cases h : c = '\n' <;> simp [splitNl, h, consHd_ne_nil]

/-- Splitting a newline-free list yields that list as the only piece. -/
theorem splitNl_eq_single {s : List Char} (h : '\n' ∉ s) : splitNl s = [s] := by
  induction s with
  | nil => rfl
  | cons c cs ih =>
      have hc : ¬ (c = '\n') := fun e => h (e ▸ List.mem_cons_self c cs)
      have hcs : '\n' ∉ cs := fun m => h (List.mem_cons_of_mem c m)
      simp [splitNl, hc, ih hcs, consHd]

/-- No piece of a split contains a newline. -/
theorem splitNl_pieces_no_newline (s : List Char) :
    ∀ p ∈ splitNl s, '\n' ∉ p := by
  induction s with
  | nil =>
      intro p hp
      simp only [splitNl, List.mem_singleton] at hp
      subst hp
      simp
  | cons c cs ih =>
      intro p hp
      by_cases h : c = '\n'
      · simp only [splitNl, if_pos h, List.mem_cons] at hp
        rcases hp with rfl | hp
        · simp
        · exact ih p hp
      · simp only [splitNl, if_neg h] at hp
        cases hsp : splitNl cs with
        | nil => exact absurd hsp (splitNl_ne_nil cs)
        | cons l ls =>
            rw [hsp] at hp
            simp only [consHd, List.mem_cons] at hp
            rcases hp with rfl | hp
            · intro m
              rcases List.mem_cons.mp m with e | m'
              · exact h e.symm
              · exact ih l (hsp ▸ List.mem_cons_self l ls) m'
            · exact ih p (hsp ▸ List.mem_cons_of_mem l hp)

/-- The last piece of a nonempty list of pieces is a member. -/
theorem getLastD_mem {L : List (List Char)} (hL : L ≠ []) :
    ∀ d, L.getLastD d ∈ L := by
  induction L with
  | nil => exact absurd rfl hL
  | cons a L ih =>
      intro d
      cases L with
      | nil => simp [List.getLastD]
      | cons b L' =>
          rw [List.getLastD_cons]
          exact List.mem_cons_of_mem a (ih (by simp) a)

/-- Splitting an appended list: the complete pieces of the left part,
then the split of its last (incomplete) piece prepended to the right
part. -/
theorem splitNl_append (a b : List Char) :
    splitNl (a ++ b) =
      (splitNl a).dropLast ++ splitNl ((splitNl a).getLastD [] ++ b) := by
  induction a with
  | nil => simp [splitNl, List.getLastD]
  | cons c a ih =>
      by_cases h : c = '\n'
      · subst h
        cases hsp : splitNl a with
        | nil => exact absurd hsp (splitNl_ne_nil a)
        | cons l ls =>
            show splitNl ('\n' :: (a ++ b)) = _
            rw [show splitNl ('\n' :: (a ++ b)) = [] :: splitNl (a ++ b) from by
                simp [splitNl],
              show splitNl ('\n' :: a) = [] :: splitNl a from by simp [splitNl],
              ih, hsp]
            simp [List.getLastD_cons]
      · cases hsp : splitNl a with
        | nil => exact absurd hsp (splitNl_ne_nil a)
        | cons l ls =>
            have hL : splitNl (c :: (a ++ b)) = consHd c (splitNl (a ++ b)) := by
              simp [splitNl, h]
            have hR : splitNl (c :: a) = consHd c (splitNl a) := by
              simp [splitNl, h]
            show splitNl (c :: (a ++ b)) = _
            rw [hL, ih, hsp, hR, hsp]
            cases ls with
            | nil =>
                have hstep : splitNl ((c :: l) ++ b) = consHd c (splitNl (l ++ b)) := by
                  rw [List.cons_append]
                  simp [splitNl, h]
                show consHd c ([l].dropLast ++ splitNl ([l].getLastD [] ++ b)) =
                  (consHd c [l]).dropLast ++ splitNl ((consHd c [l]).getLastD [] ++ b)
                rw [List.dropLast_single, List.nil_append,
                  show ([l].getLastD [] : List Char) = l from rfl,
                  show consHd c [l] = [c :: l] from rfl,
                  List.dropLast_single, List.nil_append,
                  show ([c :: l].getLastD [] : List Char) = c :: l from rfl]
                exact hstep.symm
            | cons l2 ls2 =>
                simp [consHd, List.getLastD_cons, List.dropLast_cons₂]

/-- The default of `getLastD` is irrelevant for a nonempty list. -/
theorem getLastD_irrel {L : List (List Char)} (h : L ≠ []) (d e : List Char) :
    L.getLastD d = L.getLastD e := by
  cases L with
  | nil => exact absurd rfl h
  | cons b L' => rw [List.getLastD_cons, List.getLastD_cons]

/-- `getLastD` of an appended list with nonempty right part. -/
theorem getLastD_append_right {l₂ : List (List Char)} (h : l₂ ≠ []) :
    ∀ (l₁ : List (List Char)) (d : List Char), (l₁ ++ l₂).getLastD d = l₂.getLastD d := by
  intro l₁
  induction l₁ with
  | nil => intro d; rfl
  | cons a l₁ ih =>
      intro d
      rw [List.cons_append, List.getLastD_cons, ih a]
      exact getLastD_irrel h a d

/-- The frame decoder over a sequence of chunks, run from a
newline-free buffer, emits exactly the complete pieces of the buffer
followed by the whole remaining stream, and retains the unterminated
last piece. -/
theorem decodeChunksAux_eq (cs : List (List Char)) :
    ∀ buf : List Char, '\n' ∉ buf →
    decodeChunksAux buf cs =
      ((splitNl (buf ++ cs.flatten)).dropLast,
       (splitNl (buf ++ cs.flatten)).getLastD []) := by
  induction cs with
  | nil =>
      intro buf h
      simp [decodeChunksAux, splitNl_eq_single h, List.getLastD]
  | cons c cs ih =>
      intro buf h
      have hbuf' : '\n' ∉ (splitNl (buf ++ c)).getLastD [] :=
        splitNl_pieces_no_newline (buf ++ c) _
          (getLastD_mem (splitNl_ne_nil (buf ++ c)) [])
      have hsplit : splitNl (buf ++ (c :: cs).flatten) =
          (splitNl (buf ++ c)).dropLast ++
            splitNl ((splitNl (buf ++ c)).getLastD [] ++ cs.flatten) := by
        rw [List.flatten_cons, ← List.append_assoc]
        exact splitNl_append (buf ++ c) cs.flatten
      show ((feedChunk buf c).1 ++ (decodeChunksAux (feedChunk buf c).2 cs).1,
            (decodeChunksAux (feedChunk buf c).2 cs).2) = _
      rw [show (feedChunk buf c).2 = (splitNl (buf ++ c)).getLastD [] from rfl,
          show (feedChunk buf c).1 = (splitNl (buf ++ c)).dropLast from rfl,
          ih _ hbuf', hsplit]
      refine Prod.ext ?_ ?_
      · show (splitNl (buf ++ c)).dropLast ++
            (splitNl ((splitNl (buf ++ c)).getLastD [] ++ cs.flatten)).dropLast =
          ((splitNl (buf ++ c)).dropLast ++
            splitNl ((splitNl (buf ++ c)).getLastD [] ++ cs.flatten)).dropLast
        rw [List.dropLast_append_of_ne_nil _
          (splitNl_ne_nil ((splitNl (buf ++ c)).getLastD [] ++ cs.flatten))]
      · show (splitNl ((splitNl (buf ++ c)).getLastD [] ++ cs.flatten)).getLastD [] =
          ((splitNl (buf ++ c)).dropLast ++
            splitNl ((splitNl (buf ++ c)).getLastD [] ++ cs.flatten)).getLastD []
        rw [getLastD_append_right
          (splitNl_ne_nil ((splitNl (buf ++ c)).getLastD [] ++ cs.flatten))]

/-! ### Claims -/

/-- C6: for every chunking of a byte stream, the frame decoder emits
exactly the complete (newline-terminated) lines of the whole stream, in
order — a function of the flattened stream only, hence identical across
all chunkings — and the unterminated remainder is retained in the
buffer and never emitted. -/
theorem frame_decoder_split_invariance (cs : List (List Char)) :
    (decodeChunks cs).1 = (splitNl cs.flatten).dropLast ∧
    (decodeChunks cs).2 = (splitNl cs.flatten).getLastD [] := by
  have h := decodeChunksAux_eq cs [] (by simp)
  unfold decodeChunks
  rw [h]
  simp


/-- C9: For every prior state (mid-run, after an error, or after
completion), `resetSteps` returns every stage to the default plan
(`INITIAL_STEPS`, all stages `pending`) and empties the results
aggregate (and the surfaced error). -/
theorem resetRun_restores_defaults (st : HomeState) :
    (resetSteps st).steps = INITIAL_STEPS ∧
    (∀ s ∈ (resetSteps st).steps, s.status = .pending) ∧
    (resetSteps st).result = none ∧
    (resetSteps st).error = none := by
  refine ⟨rfl, ?_, rfl, rfl⟩
  show ∀ s ∈ INITIAL_STEPS, s.status = .pending
  decide

/-- C1 (amended): applying a `progress` event does not decrease a
stage's `displayProgress` provided the simulated ramp value for the
stage is at least the previously reported percent; without that
proviso the reported channel is overwritten, and the display can
regress (see the counterexample). -/
theorem progress_event_nonregression_of_sim (st : HomeState) (simulated : String → ℚ)
    (id : String) (p : ℚ) (h : st.realProgress id ≤ simulated id) :
    displayProgress st.steps st.realProgress simulated id ≤
      displayProgress (applyEvent st (Event.progress id p)).1.steps
        (applyEvent st (Event.progress id p)).1.realProgress simulated id := by
  have hsteps : (applyEvent st (Event.progress id p)).1.steps = st.steps := rfl
  have hreal : (applyEvent st (Event.progress id p)).1.realProgress =
      Function.update st.realProgress id p := rfl
  rw [hsteps, hreal, displayProgress_eq_find?, displayProgress_eq_find?]
  cases hf : st.steps.find? (fun s => s.id = id) with
  | none => exact le_refl _
  | some s =>
      have hid : s.id = id := by simpa using List.find?_some hf
      cases hst : s.status <;> simp only [hst] <;> try exact le_refl _
      · -- active
        simp only [reduceCtorEq, if_false, if_true, hid, Function.update_same]
        exact jsRound_mono (by
          rw [max_eq_right h]
          exact le_max_right _ _)

/-- C1 witness: with `transcription` active and no percent yet
reported, a `progress` event (percent 40) while the simulated ramp sits
at 55 does not decrease the displayed value. -/
theorem progress_event_nonregression_witness :
    displayProgress runTwitter.steps runTwitter.realProgress (fun _ => 55)
        "transcription" ≤
      displayProgress
        (applyEvent runTwitter (Event.progress "transcription" 40)).1.steps
        (applyEvent runTwitter (Event.progress "transcription" 40)).1.realProgress
        (fun _ => 55) "transcription" :=
  progress_event_nonregression_of_sim runTwitter (fun _ => 55) "transcription" 40
    (by norm_num [runTwitter, startRun, initialState])

/-- C1 counterexample: with `transcription` active, a reported 80
percent followed by a reported 30 percent while the simulated ramp sits
at 10 drops the displayed value from 80 to 30 — the claim's universal
non-regression fails on the code. -/
theorem progress_event_regresses_display :
    displayProgress runT80.steps runT80.realProgress (fun _ => 10) "transcription" = 80 ∧
    displayProgress runT80then30.steps runT80then30.realProgress
      (fun _ => 10) "transcription" = 30 ∧
    displayProgress runT80then30.steps runT80then30.realProgress
        (fun _ => 10) "transcription" <
      displayProgress runT80.steps runT80.realProgress (fun _ => 10) "transcription" := by
  have hr1 : runT80.realProgress "transcription" = 80 := by
    simp [runT80, runTwitter, startRun, initialState, applyEvent, Function.update]
  have hr2 : runT80then30.realProgress "transcription" = 30 := by
    simp [runT80then30, runT80, runTwitter, startRun, initialState, applyEvent,
      Function.update]
  have h1 : displayProgress runT80.steps runT80.realProgress
      (fun _ => 10) "transcription" = 80 := by
    rw [display_of_active_find? runT80.steps runT80.realProgress (fun _ => 10)
      "transcription"
      { id := "transcription", label := "Transcription",
        description := "Local Whisper", status := .active, progress := none } rfl rfl]
    rw [hr1, max_eq_left (by norm_num : (10:ℚ) ≤ 80)]
    norm_num [jsRound]
  have h2 : displayProgress runT80then30.steps runT80then30.realProgress
      (fun _ => 10) "transcription" = 30 := by
    rw [display_of_active_find? runT80then30.steps runT80then30.realProgress
      (fun _ => 10) "transcription"
      { id := "transcription", label := "Transcription",
        description := "Local Whisper", status := .active, progress := none } rfl rfl]
    rw [hr2, max_eq_left (by norm_num : (10:ℚ) ≤ 30)]
    norm_num [jsRound]
  refine ⟨h1, h2, ?_⟩
  rw [h1, h2]
  norm_num

/-- C5: while a stage is `active`, its displayed progress is exactly
`max(reported, simulated)` rounded to an integer. -/
theorem active_display_is_rounded_max (steps : List PipelineStep)
    (real simulated : String → ℚ) (id : String) (s : PipelineStep)
    (hf : steps.find? (fun t => t.id = id) = some s) (ha : s.status = .active) :
    displayProgress steps real simulated id =
      jsRound (max (real id) (simulated id)) :=
  display_of_active_find? steps real simulated id s hf ha

/-- C5 witness (Scenario C): with `analysis` active and a `progress`
event reporting 40 percent while the simulated ramp has reached 55, the
displayed value for `analysis` is 55. -/
theorem active_display_is_rounded_max_witness :
    displayProgress runAnalysis40.steps runAnalysis40.realProgress
      (fun _ => 55) "analysis" = 55 := by
  rw [active_display_is_rounded_max runAnalysis40.steps runAnalysis40.realProgress
    (fun _ => 55) "analysis"
    { id := "analysis", label := "Intelligence", description := "Brain + Research",
      status := .active, progress := none } rfl rfl]
  have hr : runAnalysis40.realProgress "analysis" = 40 := by
    simp [runAnalysis40, runAnalysisActive, runTwitter, startRun, initialState,
      applyEvent, runLines, Function.update]
  rw [hr, max_eq_right (by norm_num : (40:ℚ) ≤ 55)]
  norm_num [jsRound]

/-- C2 (amended): a `skipped` stage is not specially protected:
stage-status effects are not suppressed for it.  An event whose handler
targets its id changes its status like any other stage (an `audio`
event activates a skipped `audio` stage), and at normal stream end
every stage, skipped ones included, becomes `completed`. -/
theorem skipped_not_protected (st : HomeState) (d : String) (s : PipelineStep)
    (hs : s ∈ st.steps) (_hsk : s.status = .skipped) (hid : s.id = "audio") :
    { s with status := .active } ∈ (applyEvent st (Event.audio d)).1.steps ∧
    ∀ t ∈ (processStream st []).steps, t.status = .completed := by
  constructor
  · show { s with status := .active } ∈
      updateStepStatus "audio" .active (updateStepStatus "visuals" .completed st.steps)
    unfold updateStepStatus
    rw [List.map_map]
    have hval :
        ((fun step : PipelineStep =>
            if step.id = "audio" then
              { step with status := StepStatus.active,
                          progress := if StepStatus.active = .completed then some 100
                                      else step.progress }
            else step) ∘
          (fun step : PipelineStep =>
            if step.id = "visuals" then
              { step with status := StepStatus.completed,
                          progress := if StepStatus.completed = .completed then some 100
                                      else step.progress }
            else step)) s = { s with status := .active } := by
      simp [Function.comp, hid]
    exact hval ▸ List.mem_map_of_mem _ hs
  · intro t ht
    have hsteps : (processStream st []).steps =
        st.steps.map (fun u => { u with status := StepStatus.completed }) := rfl
    rw [hsteps] at ht
    obtain ⟨u, _, rfl⟩ := List.mem_map.mp ht
    rfl

/-- C2 witness: in a run requesting only `twitter`, the `audio` stage
is planned `skipped`, yet an `audio` event makes it `active`, and the
normal end of an (empty) stream completes every stage. -/
theorem skipped_not_protected_witness :
    { id := "audio", label := "Audio Hub", description := "Neural Dubbing",
      status := StepStatus.active, progress := none } ∈
        (applyEvent runTwitter (Event.audio "d")).1.steps ∧
    ∀ t ∈ (processStream runTwitter []).steps, t.status = .completed :=
  skipped_not_protected runTwitter "d"
    { id := "audio", label := "Audio Hub", description := "Neural Dubbing",
      status := StepStatus.skipped, progress := none } (by decide) rfl rfl

/-- C2 counterexample: the `audio` stage of a `{twitter}` run is
`skipped` at plan time, and after an `audio` event its status is
`active` — a `skipped` stage does transition to another status. -/
theorem skipped_stage_transitions :
    ((runTwitter.steps.find? (fun s => s.id = "audio")).map (fun s => s.status) =
      some StepStatus.skipped) ∧
    (((applyEvent runTwitter (Event.audio "d")).1.steps.find?
        (fun s => s.id = "audio")).map (fun s => s.status) = some StepStatus.active) :=
  ⟨rfl, rfl⟩

/-- C3 (amended): when an `error` event is applied mid-run, the
surfaced error equals the event's payload, processing halts (no further
line of the response is applied), and the stage list — including the
currently `active` stage — is left unchanged: the `error` event does
not mark the active stage `error` (only a transport failure does). -/
theorem error_event_surfaces_and_halts (st : HomeState) (msg : String)
    (rest : List Event) :
    processStream st (Event.error msg :: rest) =
      { st with error := some msg, isLoading := false } ∧
    (processStream st (Event.error msg :: rest)).steps = st.steps :=
  ⟨rfl, rfl⟩

/-- C3 counterexample: a run with `transcription` active receives
`error: "rate limited"`; the error is surfaced and the following
`twitter` line is not applied, but no stage is marked `error` — the
active stage stays `active`, contradicting the claim. -/
theorem error_event_does_not_mark_active :
    ((runTwitter.steps.find? (fun s => s.id = "transcription")).map (fun s => s.status) =
      some StepStatus.active) ∧
    ((processStream runTwitter [Event.error "rate limited", Event.twitter "T"]).error =
      some "rate limited") ∧
    (((processStream runTwitter [Event.error "rate limited", Event.twitter "T"]).steps.find?
        (fun s => s.id = "transcription")).map (fun s => s.status) =
      some StepStatus.active) ∧
    ((processStream runTwitter [Event.error "rate limited", Event.twitter "T"]).result =
      some initialResult) :=
  ⟨rfl, rfl, rfl, rfl⟩

/-- C4 (amended): the `airtable` event completes exactly the stages
with ids `generation`, `features` and `storage` (the `features` id
matches no stage of the actual plan, a no-op); every other stage —
still-active ones included — is left unchanged, rather than every
still-active stage being completed. -/
theorem airtable_completes_fixed_ids (st : HomeState) :
    (applyEvent st Event.airtable).1.steps = st.steps.map (fun s =>
      if s.id = "generation" ∨ s.id = "features" ∨ s.id = "storage" then
        { s with status := StepStatus.completed, progress := some 100 }
      else s) := by
  show updateStepStatus "storage" .completed (updateStepStatus "features" .completed
    (updateStepStatus "generation" .completed st.steps)) = _
  unfold updateStepStatus
  rw [List.map_map, List.map_map]
  apply List.map_congr_left
  intro s _
  by_cases h1 : s.id = "generation" <;> by_cases h2 : s.id = "features" <;>
    by_cases h3 : s.id = "storage" <;>
    simp_all [Function.comp]

/-- C4 counterexample: with the `audio` stage still `active`, applying
the `airtable` event leaves it `active` — the terminal persistence
event does not complete every still-active stage. -/
theorem airtable_leaves_active_audio :
    ((runAudioActive.steps.find? (fun s => s.id = "audio")).map (fun s => s.status) =
      some StepStatus.active) ∧
    (((applyEvent runAudioActive Event.airtable).1.steps.find?
        (fun s => s.id = "audio")).map (fun s => s.status) = some StepStatus.active) :=
  ⟨rfl, rfl⟩

/-- C7 (amended): for requested outputs `{twitter}`, the plan's stages
are exactly `transcription`, `analysis`, `generation`, `storage`
(`pending`) and `visuals`, `audio` (`skipped`); there are no `blog` or
`newsletter` stages — those are outputs of the `generation` stage. -/
theorem plan_twitter_statuses :
    (smartSteps ["twitter"]).map (fun s => (s.id, s.status)) =
      [("transcription", StepStatus.pending), ("analysis", StepStatus.pending),
       ("generation", StepStatus.pending), ("visuals", StepStatus.skipped),
       ("audio", StepStatus.skipped), ("storage", StepStatus.pending)] := rfl

/-- C7 counterexample: the plan for `{twitter}` contains no stage with
id `blog` or `newsletter` at all, so the claim that those stages are
marked `skipped` fails. -/
theorem plan_twitter_has_no_blog_stage :
    (smartSteps ["twitter"]).find? (fun s => s.id = "blog") = none ∧
    (smartSteps ["twitter"]).find? (fun s => s.id = "newsletter") = none :=
  ⟨rfl, rfl⟩

/-- C8: invoking `handleStopPipeline` while a stage is `active` demotes
it to `pending`, its displayed progress becomes 0 (for any channel
values), and the surfaced error is the fixed user-stop message (a
different condition from a transport failure's thrown message). -/
theorem stopRun_demotes_active (st : HomeState) (s : PipelineStep)
    (real simulated : String → ℚ)
    (hf : st.steps.find? (fun t => t.id = s.id) = some s) (ha : s.status = .active) :
    (handleStopPipeline st).steps.find? (fun t => t.id = s.id) =
      some { s with status := StepStatus.pending } ∧
    displayProgress (handleStopPipeline st).steps real simulated s.id = 0 ∧
    (handleStopPipeline st).error = some "Pipeline stopped by user" := by
  have hfind : (handleStopPipeline st).steps.find? (fun t => t.id = s.id) =
      some { s with status := StepStatus.pending } := by
    have hsteps : (handleStopPipeline st).steps =
        st.steps.map (fun step =>
          if step.status = .active then { step with status := StepStatus.pending }
          else step) := rfl
    rw [hsteps, find?_map_of_id_eq _
      (fun u => by by_cases h : u.status = .active <;> simp [h]) s.id, hf]
    simp [ha]
  refine ⟨hfind, ?_, rfl⟩
  rw [displayProgress_eq_find?, hfind]
  simpa using jsRound_zero

/-- C8 witness (Scenario E): stopping while `generation` is `active`
makes it `pending` with displayed progress 0 and surfaces
"Pipeline stopped by user". -/
theorem stopRun_demotes_active_witness :
    (handleStopPipeline runGenActive).steps.find? (fun t => t.id = "generation") =
      some { id := "generation", label := "Content Hub", description := "Social Assets",
             status := StepStatus.pending, progress := none } ∧
    displayProgress (handleStopPipeline runGenActive).steps (fun _ => 0) (fun _ => 0)
      "generation" = 0 ∧
    (handleStopPipeline runGenActive).error = some "Pipeline stopped by user" :=
  stopRun_demotes_active runGenActive
    { id := "generation", label := "Content Hub", description := "Social Assets",
      status := StepStatus.active, progress := none } (fun _ => 0) (fun _ => 0) rfl rfl

/-- C10: Applying a stage-status update for a stage id that is not
present in the stage list leaves the whole stage list unchanged. -/
theorem updateStepStatus_absent_id (steps : List PipelineStep) (id : String)
    (status : StepStatus) (h : ∀ s ∈ steps, s.id ≠ id) :
    updateStepStatus id status steps = steps := by
  unfold updateStepStatus
  conv_rhs => rw [← List.map_id steps]
  exact List.map_congr_left (fun s hs => by simp [h s hs])

/-- C10 witness: the id `"features"` (targeted by the `broll` and
`airtable` handlers) occurs in no stage of the default plan, so
updating it is a no-op. -/
theorem updateStepStatus_absent_id_witness :
    updateStepStatus "features" .active INITIAL_STEPS = INITIAL_STEPS :=
  updateStepStatus_absent_id INITIAL_STEPS "features" .active (by decide)

end OmniCore
